import Mathlib

/-
Shallow embedding of the switchboard rendezvous server (src/index.ts, the
current version at the top of the file).  The server keeps an in-memory
`book` mapping network ids to a presence table (address -> last-seen time)
and a mailbox (ordered list of negotiation items).  JavaScript objects are
modelled as association lists preserving key-insertion order, which is the
iteration order of `for..in` over such objects; timestamps are `Nat`
milliseconds.
-/

set_option maxHeartbeats 1000000

namespace Switchboard

/-- src/index.ts line 5: interval of the periodic sweep, in milliseconds. -/
def CLEAN_INTERVAL : Nat := 1000 * 60 * 1

/-- src/index.ts line 6: capacity bound of a network's mailbox. -/
def MAX_NEGOTIATIONS_ITEMS_PER_NETWORK : Nat := 500

/-- src/index.ts line 7: TTL of a presence entry, in milliseconds. -/
def MAX_ADDRESS_AGE : Nat := 1000 * 30

/-- src/index.ts lines 20-40: `NegotiationCommon & {sdp}`; `timestamp` is an
optional field (`timestamp?: number`), modelled as `Option Nat`. -/
structure Negotiation where
  type : String
  sdp : String
  address : String
  networkId : String
  connectionId : String
  timestamp : Option Nat
deriving DecidableEq

/-- src/index.ts lines 42-46: an addressed mailbox entry.  The source field
names `for` and `from` are Lean keywords, so they are written with
guillemets. -/
structure NegotiationItem where
  «for» : String
  «from» : String
  negotiation : Negotiation
deriving DecidableEq

/-- src/index.ts lines 48-52: a POST request body. -/
structure Request where
  networkId : String
  address : String
  negotiationItems : List NegotiationItem
deriving DecidableEq

/-- src/index.ts lines 54-57: a POST response body. -/
structure Response where
  addresses : List String
  negotiationItems : List NegotiationItem
deriving DecidableEq

/-- src/index.ts lines 59-64: the per-network state stored in the book.
`addresses` is the JS object `{ [address: string]: number }`, an insertion
ordered association list from address to last-seen time. -/
structure NetworkState where
  addresses : List (String × Nat)
  negotiationItems : List NegotiationItem
deriving DecidableEq

/-- src/index.ts line 66: the global book, keyed by network id. -/
abbrev Book : Type := List (String × NetworkState)

/-- src/index.ts lines 132-135: the state a fresh network starts with. -/
def emptyNetwork : NetworkState := { addresses := [], negotiationItems := [] }

/-- JS property read `book[networkId]`: first (only) binding of the key. -/
def getNetwork (b : Book) (nid : String) : Option NetworkState :=
  (b.find? (fun p => p.1 == nid)).map Prod.snd

/-- The network state the request handler operates on: the existing binding,
or the fresh state installed by src/index.ts lines 131-136. -/
def networkOf (b : Book) (nid : String) : NetworkState :=
  (getNetwork b nid).getD emptyNetwork

/-- JS property write `book[networkId] = st`: overwrite the existing binding
in place, else append the new key at the end of the iteration order. -/
def setNetwork : Book → String → NetworkState → Book
  | [], nid, st => [(nid, st)]
  | p :: rest, nid, st =>
    if p.1 == nid then (nid, st) :: rest else p :: setNetwork rest nid st

/-- JS property write `addresses[address] = now` (src/index.ts line 139):
overwrite in place, else append. -/
def setAddr : List (String × Nat) → String → Nat → List (String × Nat)
  | [], a, t => [(a, t)]
  | p :: rest, a, t =>
    if p.1 == a then (a, t) :: rest else p :: setAddr rest a t

/-- src/index.ts line 181: `Date.now() - expiry > MAX_ADDRESS_AGE`.  With
`Nat` subtraction a last-seen time in the future truncates to age `0`, which
agrees with the JS comparison (a negative age is never `> MAX_ADDRESS_AGE`). -/
def isExpired (now lastSeen : Nat) : Bool :=
  decide (MAX_ADDRESS_AGE < now - lastSeen)

/-- The addresses a cleanup pass at time `now` evicts from a presence table:
exactly the keys whose entry is expired. -/
def expiredKeys (now : Nat) (addrs : List (String × Nat)) : List String :=
  (addrs.filter (fun p => isExpired now p.2)).map Prod.fst

/-- src/index.ts lines 179-188: the body of the `for..in` loop of
`cleanExpiredAddressesForNetworkId`.  The loop iterates over the keys
present when it starts (only the current key is ever deleted, so `for..in`
visits every original key); an expired key is deleted from the address
object and the mailbox is filtered by `item.from !== address`. -/
def cleanLoop (now : Nat) : List (String × Nat) → NetworkState → NetworkState
  | [], st => st
  | (a, _t) :: rest, st =>
    if isExpired now _t then
      cleanLoop now rest
        { addresses := st.addresses.filter (fun q => q.1 != a),
          negotiationItems := st.negotiationItems.filter (fun it => it.«from» != a) }
    else cleanLoop now rest st

/-- src/index.ts lines 178-189: `cleanExpiredAddressesForNetworkId`, acting
on one network's state at time `now`. -/
def cleanExpiredAddressesForNetworkId (now : Nat) (st : NetworkState) : NetworkState :=
  cleanLoop now st.addresses st

/-- src/index.ts line 148: `negotiationItems.filter(item => item.for ===
request.address)` — a non-mutating read of the mailbox. -/
def drainFor (addr : String) (items : List NegotiationItem) : List NegotiationItem :=
  items.filter (fun it => it.«for» == addr)

/-- src/index.ts lines 157-160: if the mailbox exceeds the capacity, the
code runs `items.splice(max, items.length)`, which deletes every element
from index `max` on — i.e. it keeps the first `max` elements. -/
def trimToCapacity (max : Nat) (items : List NegotiationItem) : List NegotiationItem :=
  if max < items.length then items.take max else items

/-- src/index.ts lines 139-142: steps 1 and 2 of the request — record the
requester as present now, then push the outgoing batch onto the mailbox. -/
def stepTouched (now : Nat) (b : Book) (req : Request) : NetworkState :=
  { addresses := setAddr (networkOf b req.networkId).addresses req.address now,
    negotiationItems := (networkOf b req.networkId).negotiationItems ++ req.negotiationItems }

/-- src/index.ts line 145: step 3 — the expired-address cleanup applied to
the touched state. -/
def stepCleaned (now : Nat) (b : Book) (req : Request) : NetworkState :=
  cleanExpiredAddressesForNetworkId now (stepTouched now b req)

/-- The addresses evicted by the cleanup pass of the request `req` processed
at time `now` over the book `b`. -/
def departedOf (now : Nat) (b : Book) (req : Request) : List String :=
  expiredKeys now (stepTouched now b req).addresses

/-- src/index.ts lines 103-162: the whole POST path.  Steps 1-3 produce
`stepCleaned`; the response (line 151-154) is computed from that state; the
capacity trim (lines 156-160) runs after the response is computed, and the
book finally holds the trimmed state under the request's network id. -/
def handlePost (now : Nat) (b : Book) (req : Request) : Book × Response :=
  let st := stepCleaned now b req
  (setNetwork b req.networkId
      { st with negotiationItems :=
          trimToCapacity MAX_NEGOTIATIONS_ITEMS_PER_NETWORK st.negotiationItems },
    { addresses := st.addresses.map Prod.fst,
      negotiationItems := drainFor req.address st.negotiationItems })

/-- src/index.ts lines 92-96: the GET branch serializes the whole book and
returns without touching it; the pair is (response body, book afterwards). -/
def handleGet (b : Book) : Book × Book := (b, b)

/-- The outputs of `n` consecutive GET requests with no interleaved writes:
each call's response, threading the (unchanged) state. -/
def listAllRepeated : Book → Nat → List Book
  | _, 0 => []
  | b, n + 1 => (handleGet b).1 :: listAllRepeated (handleGet b).2 n

/-- src/index.ts line 192 reads `book[networkId].addresses.length`.
`addresses` is a plain object `{ [address: string]: number }`, so the read
finds an own property only if an address literally named "length" was
stored; otherwise it evaluates to `undefined` (modelled `none`). -/
def jsObjLength (addrs : List (String × Nat)) : Option Nat :=
  (addrs.find? (fun p => p.1 == "length")).map Prod.snd

/-- src/index.ts lines 191-195: `cleanNetworkIfEmpty` deletes the network
iff `addresses.length === 0`, i.e. iff the `length` read yields the number
`0`. -/
def cleanNetworkIfEmpty (b : Book) (nid : String) : Book :=
  if jsObjLength (networkOf b nid).addresses == some 0 then
    b.filter (fun p => p.1 != nid)
  else b

/-- One iteration of the sweep body (src/index.ts line 173): run the
expired-address cleanup on network `nid` and store the result. -/
def cleanTick (now : Nat) (b : Book) (nid : String) : Book :=
  setNetwork b nid (cleanExpiredAddressesForNetworkId now (networkOf b nid))

/-- src/index.ts lines 172-175: the `for..in` body of the periodic sweep
over the book's keys. -/
def sweepLoop (now : Nat) : List String → Book → Book
  | [], b => b
  | nid :: rest, b => sweepLoop now rest (cleanNetworkIfEmpty (cleanTick now b nid) nid)

/-- src/index.ts lines 171-176: the periodic sweep at time `now`. -/
def sweep (now : Nat) (b : Book) : Book := sweepLoop now (b.map Prod.fst) b

/-- Concrete item used for the capacity-trim evaluation: an arbitrary offer. -/
def itemA : NegotiationItem := ⟨"X", "Y", ⟨"offer", "s", "Y", "N", "c1", none⟩⟩

/-- Concrete item distinct from `itemA`, appended last (the newest). -/
def itemB : NegotiationItem := ⟨"X", "Z", ⟨"offer", "s", "Z", "N", "c2", none⟩⟩

/-- A mailbox one over capacity: 500 old items then one newest item. -/
def itemsC1 : List NegotiationItem :=
  List.replicate MAX_NEGOTIATIONS_ITEMS_PER_NETWORK itemA ++ [itemB]

/-- Concrete item addressed to "A" (the `for` role) sent by "B". -/
def itemC2 : NegotiationItem := ⟨"A", "B", ⟨"offer", "s", "B", "N", "c2", none⟩⟩

/-- Concrete network state: "A" is stale, "B" fresh, one item to "A" from "B". -/
def stC2 : NetworkState := ⟨[("A", 0), ("B", 40000)], [itemC2]⟩

/-- Concrete book holding one network whose only address is stale. -/
def bookC3 : Book := [("N", ⟨[("A", 0)], []⟩)]

/-- Concrete item enqueued at time 0, far older than any plausible TTL. -/
def itemAncient : NegotiationItem := ⟨"A", "A", ⟨"offer", "s", "A", "N", "c0", some 0⟩⟩

/-- Concrete book: network "N" with fresh address "A" and the ancient item. -/
def bookC4 : Book := [("N", ⟨[("A", 999000)], [itemAncient]⟩)]

/-- Concrete poll by "A" with no outgoing items. -/
def reqC4 : Request := ⟨"N", "A", []⟩

/-- Concrete item carrying an ancient timestamp, submitted by "A" to "B". -/
def itemOldW : NegotiationItem := ⟨"B", "A", ⟨"offer", "s", "A", "N", "c3", some 0⟩⟩

/-- Concrete request submitting `itemOldW`. -/
def reqC4w : Request := ⟨"N", "A", [itemOldW]⟩

/-- Concrete item submitted without any timestamp, addressed to its sender. -/
def itemC5 : NegotiationItem := ⟨"A", "A", ⟨"offer", "s", "A", "N", "c5", none⟩⟩

/-- Concrete request submitting the unstamped `itemC5`. -/
def reqC5 : Request := ⟨"N", "A", [itemC5]⟩

/-- Concrete presence table: "A" expired at time 40000, "B" still fresh. -/
def stC8 : NetworkState := ⟨[("A", 0), ("B", 35000)], []⟩

/-- Concrete item in "B"'s outgoing batch whose `from` names stale "A". -/
def itemC10 : NegotiationItem := ⟨"B", "A", ⟨"offer", "s", "A", "N", "c10", none⟩⟩

/-- Concrete book where "A"'s presence entry has long expired. -/
def bookC10 : Book := [("N", ⟨[("A", 0)], []⟩)]

/-- Concrete request: "B" polls, submitting `itemC10` addressed to itself. -/
def reqC10 : Request := ⟨"N", "B", [itemC10]⟩

/-- Concrete self-addressed item with a fresh sender. -/
def itemC10w : NegotiationItem := ⟨"A", "A", ⟨"offer", "s", "A", "N", "c11", none⟩⟩

/-- Concrete request submitting `itemC10w`. -/
def reqC10w : Request := ⟨"N", "A", [itemC10w]⟩

/-- Looking up the network id just written by `setNetwork` yields the
written state, whatever the book held before. -/
theorem networkOf_setNetwork (b : Book) (nid : String) (st : NetworkState) :
    networkOf (setNetwork b nid st) nid = st := by
  induction b with
  | nil => simp [setNetwork, networkOf, getNetwork]
  | cons p rest ih =>
    by_cases h : p.1 == nid
    · simp [setNetwork, h, networkOf, getNetwork]
    · simpa [setNetwork, h, networkOf, getNetwork] using ih

/-- The entry just written by `setAddr` is in the resulting table. -/
theorem mem_setAddr_self (l : List (String × Nat)) (a : String) (t : Nat) :
    (a, t) ∈ setAddr l a t := by
  induction l with
  | nil => simp [setAddr]
  | cons p rest ih =>
    by_cases h : p.1 == a
    · simp [setAddr, h]
    · simp [setAddr, h, ih]

/-- In a table with no duplicate keys, after `setAddr l a t` the key `a`
maps only to `t`. -/
theorem val_of_mem_setAddr (l : List (String × Nat)) (a : String) (t x : Nat)
    (hnd : (l.map Prod.fst).Nodup) (hx : (a, x) ∈ setAddr l a t) : x = t := by
  induction l with
  | nil =>
    simp [setAddr] at hx
    exact hx
  | cons p rest ih =>
    simp only [List.map_cons, List.nodup_cons] at hnd
    by_cases h : p.1 == a
    · simp [setAddr, h] at hx
      rcases hx with ⟨_, rfl⟩ | hx
      · rfl
      · exfalso
        refine hnd.1 ?_
        have hpa : p.1 = a := by simpa using h
        rw [hpa]
        exact List.mem_map.mpr ⟨(a, x), hx, rfl⟩
    · simp only [setAddr, h, if_neg, Bool.false_eq_true, not_false_eq_true,
        List.mem_cons] at hx
      rcases hx with rfl | hx
      · simp at h
      · exact ih hnd.2 hx

/-- Membership in the mailbox after the cleanup loop: an item survives iff
it was there before and its `from` is none of the expired keys the loop
visits. -/
theorem mem_cleanLoop_items (now : Nat) (keys : List (String × Nat))
    (st : NetworkState) (it : NegotiationItem) :
    it ∈ (cleanLoop now keys st).negotiationItems ↔
      it ∈ st.negotiationItems ∧
        ∀ p ∈ keys, isExpired now p.2 = true → it.«from» ≠ p.1 := by
  induction keys generalizing st with
  | nil => simp [cleanLoop]
  | cons q rest ih =>
    obtain ⟨a, t⟩ := q
    cases h : isExpired now t with
    | false =>
      simp only [cleanLoop, h, Bool.false_eq_true, if_neg, not_false_eq_true]
      rw [ih]
      simp [h]
    | true =>
      simp only [cleanLoop, h, if_pos]
      rw [ih]
      simp only [List.mem_filter, bne_iff_ne, ne_eq, decide_eq_true_eq,
        List.forall_mem_cons, h, forall_const, true_implies]
      tauto

/-- Membership in the presence table after the cleanup loop: an entry
survives iff it was there before and its key is none of the expired keys
the loop visits. -/
theorem mem_cleanLoop_addrs (now : Nat) (keys : List (String × Nat))
    (st : NetworkState) (q : String × Nat) :
    q ∈ (cleanLoop now keys st).addresses ↔
      q ∈ st.addresses ∧
        ∀ p ∈ keys, isExpired now p.2 = true → q.1 ≠ p.1 := by
  induction keys generalizing st with
  | nil => simp [cleanLoop]
  | cons r rest ih =>
    obtain ⟨a, t⟩ := r
    cases h : isExpired now t with
    | false =>
      simp only [cleanLoop, h, Bool.false_eq_true, if_neg, not_false_eq_true]
      rw [ih]
      simp [h]
    | true =>
      simp only [cleanLoop, h, if_pos]
      rw [ih]
      simp only [List.mem_filter, bne_iff_ne, ne_eq, decide_eq_true_eq,
        List.forall_mem_cons, h, forall_const, true_implies]
      tauto

/-- An address is among the expired keys iff some table entry binds it to an
expired last-seen time. -/
theorem mem_expiredKeys (now : Nat) (l : List (String × Nat)) (a : String) :
    a ∈ expiredKeys now l ↔ ∃ t, (a, t) ∈ l ∧ isExpired now t = true := by
  constructor
  · intro h
    simp only [expiredKeys] at h
    rcases List.mem_map.mp h with ⟨p, hp, rfl⟩
    rcases List.mem_filter.mp hp with ⟨hm, he⟩
    exact ⟨p.2, hm, he⟩
  · rintro ⟨t, hm, he⟩
    exact List.mem_map.mpr ⟨(a, t), List.mem_filter.mpr ⟨hm, he⟩, rfl⟩

/-- `trimToCapacity` is truncation to the first `max` elements. -/
theorem trimToCapacity_eq_take (max : Nat) (items : List NegotiationItem) :
    trimToCapacity max items = items.take max := by
  unfold trimToCapacity
  by_cases h : max < items.length
  · simp [h]
  · simp [h, List.take_of_length_le (Nat.le_of_not_lt h)]

/-- A presence entry seen just now is never expired just now. -/
theorem isExpired_now_now (now : Nat) : isExpired now now = false := by
  simp [isExpired]

/-- The response of a POST is read off the cleaned state: addresses are its
presence keys and the delivered items are its mailbox drained for the
requester. -/
theorem handlePost_resp (now : Nat) (b : Book) (req : Request) :
    (handlePost now b req).2
      = { addresses := (stepCleaned now b req).addresses.map Prod.fst,
          negotiationItems :=
            drainFor req.address (stepCleaned now b req).negotiationItems } := rfl

/-- The mailbox stored after a POST is the cleaned mailbox, trimmed. -/
theorem handlePost_stored (now : Nat) (b : Book) (req : Request) :
    (networkOf (handlePost now b req).1 req.networkId).negotiationItems
      = trimToCapacity MAX_NEGOTIATIONS_ITEMS_PER_NETWORK
          (stepCleaned now b req).negotiationItems := by
  show (networkOf (setNetwork b req.networkId _) req.networkId).negotiationItems = _
  rw [networkOf_setNetwork]

/-- Claim C6: after any POST request completes, including the capacity trim
performed after the response is computed, the mailbox of the request's
network holds at most `MAX_NEGOTIATIONS_ITEMS_PER_NETWORK` items. -/
theorem c6_mailbox_capacity (now : Nat) (b : Book) (req : Request) :
    (networkOf (handlePost now b req).1 req.networkId).negotiationItems.length
      ≤ MAX_NEGOTIATIONS_ITEMS_PER_NETWORK := by
  rw [handlePost_stored, trimToCapacity_eq_take, List.length_take]
  exact Nat.min_le_left _ _

/-- Claim C7: `drainFor` returns exactly the mailbox items whose `for`
field equals the requesting address, and it removes nothing — the response
holds the filter of the cleaned mailbox, while the mailbox stored after the
request is the cleaned mailbox subjected only to the capacity trim,
independent of what was delivered; a second poll of an unchanged mailbox
returns the same items because `drainFor` is a pure filter. -/
theorem c7_drainFor_pure (now : Nat) (b : Book) (req : Request)
    (it : NegotiationItem) :
    (it ∈ (handlePost now b req).2.negotiationItems ↔
        it ∈ (stepCleaned now b req).negotiationItems ∧ it.«for» = req.address)
    ∧ (networkOf (handlePost now b req).1 req.networkId).negotiationItems
        = trimToCapacity MAX_NEGOTIATIONS_ITEMS_PER_NETWORK
            (stepCleaned now b req).negotiationItems := by
  refine ⟨?_, handlePost_stored now b req⟩
  rw [handlePost_resp]
  simp [drainFor, List.mem_filter]

/-- Claim C9: the GET branch returns the full book verbatim and leaves the
state unchanged, triggering no eviction, so any number of repeated GET
calls with no intervening writes produce identical outputs. -/
theorem c9_listAll_readonly (b : Book) (n : Nat) :
    (handleGet b).1 = b ∧ (handleGet b).2 = b ∧
      listAllRepeated b n = List.replicate n b := by
  refine ⟨rfl, rfl, ?_⟩
  induction n with
  | zero => rfl
  | succ k ih => simp [listAllRepeated, handleGet, List.replicate_succ, ih]

/-- Claim C1 (evaluation at the failing input): on a mailbox one item over
capacity, the trim keeps the first `MAX_NEGOTIATIONS_ITEMS_PER_NETWORK`
items — the oldest — and discards the newest, last-appended item,
contradicting the claim and the comment at src/index.ts line 156 that the
oldest items are removed and the newest preserved. -/
theorem c1_trim_keeps_oldest :
    trimToCapacity MAX_NEGOTIATIONS_ITEMS_PER_NETWORK itemsC1
        = List.replicate MAX_NEGOTIATIONS_ITEMS_PER_NETWORK itemA
    ∧ itemB ∉ trimToCapacity MAX_NEGOTIATIONS_ITEMS_PER_NETWORK itemsC1
    ∧ itemsC1.length = MAX_NEGOTIATIONS_ITEMS_PER_NETWORK + 1
    ∧ itemsC1.getLast? = some itemB := by
  have htake : trimToCapacity MAX_NEGOTIATIONS_ITEMS_PER_NETWORK itemsC1
      = List.replicate MAX_NEGOTIATIONS_ITEMS_PER_NETWORK itemA := by
    rw [trimToCapacity_eq_take, itemsC1]
    exact List.take_left' (by simp)
  refine ⟨htake, ?_, by simp [itemsC1], ?_⟩
  · rw [htake]
    intro hmem
    have hne : itemB ≠ itemA := by decide
    exact hne (List.mem_replicate.mp hmem).2
  · rw [itemsC1]
    exact List.getLast?_concat _

/-- Claim C3 (evaluation at the failing input): sweeping a network whose
only presence entry has expired empties its presence table, yet the network
is never deleted from the book — the emptiness test at src/index.ts line
192 reads the `length` property of a plain object, which is undefined and
never strictly equal to 0 — and even the direct emptiness check on an
already-empty table leaves the network in place. -/
theorem c3_network_never_deleted :
    sweep 40000 bookC3 = [("N", { addresses := [], negotiationItems := [] })]
    ∧ cleanNetworkIfEmpty [("N", { addresses := [], negotiationItems := [] })] "N"
        = [("N", { addresses := [], negotiationItems := [] })] := by
  constructor
  · decide
  · decide

/-- Claim C2 (amended): the cleanup pass removes every item whose `from`
equals a departed address — and only filters on `from` — so no subsequent
`drainFor` of the cleaned mailbox returns an item whose sender departed.
Items merely addressed *to* a departed address are not covered (see the
counterexample). -/
theorem c2_cascade_from_only (now : Nat) (st : NetworkState) (addr : String)
    (it : NegotiationItem)
    (h : it ∈ drainFor addr (cleanExpiredAddressesForNetworkId now st).negotiationItems) :
    it.«from» ∉ expiredKeys now st.addresses := by
  have h1 : it ∈ (cleanExpiredAddressesForNetworkId now st).negotiationItems := by
    rw [drainFor] at h
    exact (List.mem_filter.mp h).1
  rw [cleanExpiredAddressesForNetworkId, mem_cleanLoop_items] at h1
  intro hmem
  rcases (mem_expiredKeys now st.addresses it.«from»).mp hmem with ⟨t, hm, he⟩
  exact h1.2 (it.«from», t) hm he rfl

/-- Witness for `c2_cascade_from_only` at a concrete cleaned mailbox. -/
theorem c2_cascade_from_only_witness :
    itemC2 ∈ drainFor "A" (cleanExpiredAddressesForNetworkId 40000 stC2).negotiationItems
    ∧ itemC2.«from» ∉ expiredKeys 40000 stC2.addresses :=
  ⟨by decide, c2_cascade_from_only 40000 stC2 "A" itemC2 (by decide)⟩

/-- Claim C2 (counterexample): address "A" departs during the cleanup pass,
yet the item addressed to "A" (its `for` field) survives and is returned by
a subsequent `drainFor "A"` — only the `from` role is cascaded. -/
theorem c2_counterexample :
    itemC2 ∈ drainFor "A" (cleanExpiredAddressesForNetworkId 40000 stC2).negotiationItems
    ∧ itemC2.«for» = "A"
    ∧ "A" ∈ expiredKeys 40000 stC2.addresses
    ∧ "A" ∉ (cleanExpiredAddressesForNetworkId 40000 stC2).addresses.map Prod.fst := by
  decide

/-- An item of the touched mailbox whose sender is not among this request's
departing addresses survives the cleanup pass. -/
theorem survives_clean_of_not_departed (now : Nat) (b : Book) (req : Request)
    (it : NegotiationItem)
    (h1 : it ∈ (stepTouched now b req).negotiationItems)
    (h2 : it.«from» ∉ departedOf now b req) :
    it ∈ (stepCleaned now b req).negotiationItems := by
  rw [stepCleaned, cleanExpiredAddressesForNetworkId, mem_cleanLoop_items]
  refine ⟨h1, ?_⟩
  intro p hp hexp heq
  apply h2
  rw [departedOf, mem_expiredKeys]
  refine ⟨p.2, ?_, hexp⟩
  rw [heq]
  simpa using hp

/-- Claim C4 (amended): the request path performs no age-based eviction of
negotiation items — any item of the touched mailbox (old or just submitted)
whose sender is not among the addresses departing in this request's cleanup
survives to the delivery stage, whatever its timestamp. -/
theorem c4_no_age_eviction (now : Nat) (b : Book) (req : Request)
    (it : NegotiationItem)
    (h1 : it ∈ (networkOf b req.networkId).negotiationItems ++ req.negotiationItems)
    (h2 : it.«from» ∉ departedOf now b req) :
    it ∈ (stepCleaned now b req).negotiationItems :=
  survives_clean_of_not_departed now b req it h1 h2

/-- Witness for `c4_no_age_eviction`: an item carrying timestamp 0 survives
a request processed at time 1000000. -/
theorem c4_no_age_eviction_witness :
    (itemOldW ∈ (networkOf [] reqC4w.networkId).negotiationItems
        ++ reqC4w.negotiationItems)
    ∧ itemOldW.«from» ∉ departedOf 1000000 [] reqC4w
    ∧ itemOldW ∈ (stepCleaned 1000000 [] reqC4w).negotiationItems :=
  ⟨by decide, by decide,
    c4_no_age_eviction 1000000 [] reqC4w itemOldW (by decide) (by decide)⟩

/-- Claim C4 (counterexample): an item enqueued at time 0 is still in the
mailbox — and is even delivered — after a request processed at time
1000000, an age far beyond any TTL appearing anywhere in the repository
(the superseded variant used 3 minutes): no negotiation-item TTL eviction
exists on the request path. -/
theorem c4_counterexample :
    itemAncient ∈ (handlePost 1000000 bookC4 reqC4).2.negotiationItems
    ∧ (networkOf (handlePost 1000000 bookC4 reqC4).1 "N").negotiationItems
        = [itemAncient]
    ∧ itemAncient.negotiation.timestamp = some 0
    ∧ 1000 * 60 * 3 < 1000000 := by
  decide

/-- Claim C5 (amended): items are appended and returned verbatim — every
item held in the stored mailbox or returned in the response after a POST is,
field for field (its optional timestamp included), either an item already in
the mailbox or one of the just-submitted items; the server never stamps a
timestamp onto an item. -/
theorem c5_items_verbatim (now : Nat) (b : Book) (req : Request)
    (it : NegotiationItem)
    (h : it ∈ (networkOf (handlePost now b req).1 req.networkId).negotiationItems
         ∨ it ∈ (handlePost now b req).2.negotiationItems) :
    it ∈ (networkOf b req.networkId).negotiationItems ∨ it ∈ req.negotiationItems := by
  have hc : ∀ x : NegotiationItem, x ∈ (stepCleaned now b req).negotiationItems →
      x ∈ (networkOf b req.networkId).negotiationItems ∨ x ∈ req.negotiationItems := by
    intro x hx
    rw [stepCleaned, cleanExpiredAddressesForNetworkId, mem_cleanLoop_items] at hx
    exact List.mem_append.mp hx.1
  rcases h with h | h
  · rw [handlePost_stored, trimToCapacity_eq_take] at h
    exact hc it (List.take_subset _ _ h)
  · rw [handlePost_resp] at h
    simp only [drainFor, List.mem_filter] at h
    exact hc it h.1

/-- Witness for `c5_items_verbatim` at a concrete request. -/
theorem c5_items_verbatim_witness :
    itemC5 ∈ (handlePost 1000 [] reqC5).2.negotiationItems
    ∧ (itemC5 ∈ (networkOf [] reqC5.networkId).negotiationItems
       ∨ itemC5 ∈ reqC5.negotiationItems) :=
  ⟨by decide, c5_items_verbatim 1000 [] reqC5 itemC5 (Or.inr (by decide))⟩

/-- Claim C5 (counterexample): an item submitted without a timestamp is
stored and returned still without a timestamp — no stamping at append, and
the returned item carries no timestamp field. -/
theorem c5_counterexample :
    (handlePost 1000 [] reqC5).2.negotiationItems = [itemC5]
    ∧ (networkOf (handlePost 1000 [] reqC5).1 "N").negotiationItems = [itemC5]
    ∧ itemC5.negotiation.timestamp = none := by
  decide

/-- Claim C8: for a presence table without duplicate keys, an entry survives
`cleanExpiredAddressesForNetworkId` exactly when its age is at most
`MAX_ADDRESS_AGE` — so every remaining entry's age is within the TTL — and
the set of expired keys (the addresses the cascade uses) holds the entry's
address exactly when its age exceeds the TTL. -/
theorem c8_evictExpired (now : Nat) (st : NetworkState) (q : String × Nat)
    (hnd : (st.addresses.map Prod.fst).Nodup) (hq : q ∈ st.addresses) :
    (q ∈ (cleanExpiredAddressesForNetworkId now st).addresses ↔
        now - q.2 ≤ MAX_ADDRESS_AGE)
    ∧ (q.1 ∈ expiredKeys now st.addresses ↔ MAX_ADDRESS_AGE < now - q.2) := by
  have hinj := List.inj_on_of_nodup_map hnd
  constructor
  · rw [cleanExpiredAddressesForNetworkId, mem_cleanLoop_addrs]
    constructor
    · rintro ⟨_, hall⟩
      by_contra hgt
      push_neg at hgt
      exact hall q hq (by simp [isExpired, hgt]) rfl
    · intro hle
      refine ⟨hq, ?_⟩
      intro p hp hexp heq
      have hpq : q = p := hinj hq hp heq
      have hfresh : isExpired now q.2 = false := by
        simpa [isExpired, Nat.not_lt] using hle
      rw [← hpq, hfresh] at hexp
      exact Bool.false_ne_true hexp
  · constructor
    · intro h
      rcases (mem_expiredKeys now st.addresses q.1).mp h with ⟨t, hm, he⟩
      have hqt : (q.1, t) = q := hinj hm hq rfl
      have ht : t = q.2 := congrArg Prod.snd hqt
      rw [← ht]
      simpa [isExpired] using he
    · intro h
      refine (mem_expiredKeys now st.addresses q.1).mpr ⟨q.2, ?_, ?_⟩
      · simpa using hq
      · simp [isExpired, h]

/-- Witness for `c8_evictExpired` on a concrete table holding one expired
and one fresh entry. -/
theorem c8_evictExpired_witness :
    (stC8.addresses.map Prod.fst).Nodup
    ∧ ("B", 35000) ∈ stC8.addresses
    ∧ ((("B", 35000) ∈ (cleanExpiredAddressesForNetworkId 40000 stC8).addresses ↔
          40000 - 35000 ≤ MAX_ADDRESS_AGE)
       ∧ ("B" ∈ expiredKeys 40000 stC8.addresses ↔
          MAX_ADDRESS_AGE < 40000 - 35000)) :=
  ⟨by decide, by decide, c8_evictExpired 40000 stC8 ("B", 35000) (by decide) (by decide)⟩

/-- Claim C10 (amended): because the requester is touched with the current
time before the cleanup, every request's response — whatever the outgoing
batch, empty ones included — lists the requester's own address; and an item
of the request's own batch addressed to the requester is returned in the
same response provided its `from` is not an address evicted during this
request's cleanup pass (the counterexample shows the proviso is necessary;
it attaches only to the delivery half).  The presence table is assumed
duplicate-free, as JS object keys are. -/
theorem c10_requester_sees_own (now : Nat) (b : Book) (req : Request)
    (it : NegotiationItem)
    (hnd : ((networkOf b req.networkId).addresses.map Prod.fst).Nodup) :
    req.address ∈ (handlePost now b req).2.addresses
    ∧ (it ∈ req.negotiationItems → it.«for» = req.address →
        it.«from» ∉ departedOf now b req →
        it ∈ (handlePost now b req).2.negotiationItems) := by
  have hfreshKey : ∀ p ∈ (stepTouched now b req).addresses,
      isExpired now p.2 = true → req.address ≠ p.1 := by
    intro p hp hexp heq
    have hp' : p = (req.address, p.2) := by
      rw [heq]
    have hp2 : (req.address, p.2)
        ∈ setAddr (networkOf b req.networkId).addresses req.address now := by
      rw [← hp']
      exact hp
    have hval := val_of_mem_setAddr (networkOf b req.networkId).addresses
      req.address now p.2 hnd hp2
    rw [hval, isExpired_now_now] at hexp
    exact Bool.false_ne_true hexp
  have haddr : (req.address, now) ∈ (stepCleaned now b req).addresses := by
    rw [stepCleaned, cleanExpiredAddressesForNetworkId, mem_cleanLoop_addrs]
    exact ⟨mem_setAddr_self _ _ _, hfreshKey⟩
  have hresp1 : req.address ∈ (handlePost now b req).2.addresses := by
    rw [handlePost_resp]
    exact List.mem_map.mpr ⟨(req.address, now), haddr, rfl⟩
  refine ⟨hresp1, ?_⟩
  intro h1 h2 h3
  have hit : it ∈ (stepCleaned now b req).negotiationItems :=
    survives_clean_of_not_departed now b req it
      (List.mem_append.mpr (Or.inr h1)) h3
  rw [handlePost_resp]
  simp only [drainFor, List.mem_filter]
  exact ⟨hit, by simp [h2]⟩

/-- Witness for `c10_requester_sees_own` at a concrete request whose item
names the requester in both roles. -/
theorem c10_requester_sees_own_witness :
    ((networkOf [] reqC10w.networkId).addresses.map Prod.fst).Nodup
    ∧ (reqC10w.address ∈ (handlePost 1000 [] reqC10w).2.addresses
       ∧ (itemC10w ∈ reqC10w.negotiationItems →
          itemC10w.«for» = reqC10w.address →
          itemC10w.«from» ∉ departedOf 1000 [] reqC10w →
          itemC10w ∈ (handlePost 1000 [] reqC10w).2.negotiationItems)) :=
  ⟨by decide, c10_requester_sees_own 1000 [] reqC10w itemC10w (by decide)⟩

/-- Claim C10 (counterexample): requester "B" submits an item addressed to
itself whose `from` names the stale address "A"; "A" departs during this
very request's cleanup and the item is removed before delivery, so the
response returns no items even though the batch item's `for` equals the
requester's address (which the address list does contain). -/
theorem c10_counterexample :
    reqC10.negotiationItems = [itemC10]
    ∧ itemC10.«for» = reqC10.address
    ∧ (handlePost 40000 bookC10 reqC10).2.negotiationItems = []
    ∧ reqC10.address ∈ (handlePost 40000 bookC10 reqC10).2.addresses := by
  decide

end Switchboard
